import Mathlib

/- Verification of the response-annotation pipeline and session state machine
of a browser-resident document summarizer: a single React component App.jsx
plus a thin API wrapper. The inline markup scanner, the line-based block
scanner and every state-mutating handler are embedded as pure Lean functions.
Asynchronous handlers are split into a synchronous start phase, returning the
next state together with the request dispatched (if any), and an explicit
resolution phase applied when the awaited call settles. -/

/-- One inline part as built by the scanners in App.jsx: the JS objects with a
type field of text, bold or complex and a content string. -/
inductive InlinePart where
  | text (content : String)
  | bold (content : String)
  | complex (content : String)
deriving DecidableEq

/-- The opening marker of bold markup. -/
def boldOpen : List Char := "**".data

/-- Scanner step for the regex of parseMarkdownBold at the current position:
two literal stars, a nonempty maximal run of non-star characters, then two
literal stars. Returns the captured run and the remainder after the closing
stars; none when no match starts here. -/
def tryMatchBold (cs : List Char) : Option (List Char × List Char) :=
  if boldOpen.isPrefixOf cs then
    match (cs.drop boldOpen.length).dropWhile (fun c => c != '*') with
    | d1 :: d2 :: rest2 =>
      if (cs.drop boldOpen.length).takeWhile (fun c => c != '*') = [] then none
      else if d1 = '*' ∧ d2 = '*' then
        some ((cs.drop boldOpen.length).takeWhile (fun c => c != '*'), rest2)
      else none
    | _ => none
  else none

/-- Decomposition of a successful bold match, also giving the decrease used
for the termination of the scan loop. -/
def tryMatchBold_shape {cs run rest2 : List Char}
    (h : tryMatchBold cs = some (run, rest2)) :
    cs = '*' :: '*' :: (run ++ '*' :: '*' :: rest2) ∧ run ≠ [] := by
  unfold tryMatchBold at h
  split at h
  case isTrue hp =>
    obtain ⟨t, ht⟩ := List.isPrefixOf_iff_prefix.mp hp
    have hdrop : cs.drop boldOpen.length = t := by
      rw [← ht, List.drop_left]
    rw [hdrop] at h
    have hsplit := List.takeWhile_append_dropWhile (p := fun c => c != '*') (l := t)
    split at h
    case h_1 d1 d2 rest2' heq =>
      split at h
      case isTrue => exact absurd h (by simp)
      case isFalse hne =>
        split at h
        case isTrue hd =>
          obtain ⟨hd1, hd2⟩ := hd
          simp only [Option.some.injEq, Prod.mk.injEq] at h
          obtain ⟨hrun, hrest⟩ := h
          subst hd1 hd2
          have h1 : run ++ '*' :: '*' :: rest2 = t := by
            rw [← hrun, ← hrest, ← heq]
            exact hsplit
          refine ⟨?_, ?_⟩
          · rw [h1, ← ht]
            rfl
          · rw [← hrun]
            exact hne
        case isFalse => exact absurd h (by simp)
    case h_2 => exact absurd h (by simp)
  case isFalse => exact absurd h (by simp)

/-- The termination measure fact for the bold scan loop. -/
def tryMatchBold_lt {cs run rest2 : List Char}
    (h : tryMatchBold cs = some (run, rest2)) : rest2.length < cs.length := by
  have := (tryMatchBold_shape h).1
  rw [this]
  simp [List.length_append]
  omega

/-- Emit the pending plain characters as one text part, or nothing when no
characters are pending: the JS loop pushes the before-match substring only
when it is nonempty. -/
def flushPlain (pending : List Char) : List InlinePart :=
  if pending = [] then [] else [InlinePart.text (String.mk pending)]

/-- The exec loop of parseMarkdownBold: find the next bold match, emit the
plain run scanned so far and a bold part, and continue after the match; where
no match starts the scan advances one character. pending holds the characters
between the previous match and the scan position. -/
def boldAux (pending : List Char) (cs : List Char) : List InlinePart :=
  match h : tryMatchBold cs with
  | some (run, rest2) =>
    flushPlain pending ++ InlinePart.bold (String.mk run) :: boldAux [] rest2
  | none =>
    match cs with
    | [] => flushPlain pending
    | c :: rest => boldAux (pending ++ [c]) rest
termination_by cs.length
decreasing_by
  · exact tryMatchBold_lt h
  · simp

/-- parseMarkdownBold of App.jsx: scan the whole input for bold markup; when
the loop produced no parts at all, fall back to a single text part holding
the whole input. -/
def parseMarkdownBold (text : String) : List InlinePart :=
  if boldAux [] text.data = [] then [InlinePart.text text]
  else boldAux [] text.data

/-- The opening marker of a complex-term annotation. -/
def complexOpen : List Char := "[COMPLEX:".data

/-- Scanner step for the complex-word regex of renderSummary at the current
position: the literal opener, a nonempty maximal run of non-bracket
characters, then the closing bracket. Returns the captured term and the
remainder after the closing bracket; none when no match starts here. -/
def tryMatchComplex (cs : List Char) : Option (List Char × List Char) :=
  if complexOpen.isPrefixOf cs then
    match (cs.drop complexOpen.length).dropWhile (fun c => c != ']') with
    | d :: rest2 =>
      if (cs.drop complexOpen.length).takeWhile (fun c => c != ']') = [] then none
      else if d = ']' then
        some ((cs.drop complexOpen.length).takeWhile (fun c => c != ']'), rest2)
      else none
    | _ => none
  else none

/-- Decomposition of a successful complex-term match, also giving the decrease
used for the termination of the scan loop. -/
def tryMatchComplex_shape {cs run rest2 : List Char}
    (h : tryMatchComplex cs = some (run, rest2)) :
    cs = complexOpen ++ (run ++ ']' :: rest2) ∧ run ≠ [] := by
  unfold tryMatchComplex at h
  split at h
  case isTrue hp =>
    obtain ⟨t, ht⟩ := List.isPrefixOf_iff_prefix.mp hp
    have hdrop : cs.drop complexOpen.length = t := by
      rw [← ht, List.drop_left]
    rw [hdrop] at h
    have hsplit := List.takeWhile_append_dropWhile (p := fun c => c != ']') (l := t)
    split at h
    case h_1 d rest2' heq =>
      split at h
      case isTrue => exact absurd h (by simp)
      case isFalse hne =>
        split at h
        case isTrue hd =>
          simp only [Option.some.injEq, Prod.mk.injEq] at h
          obtain ⟨hrun, hrest⟩ := h
          subst hd
          have h1 : run ++ ']' :: rest2 = t := by
            rw [← hrun, ← hrest, ← heq]
            exact hsplit
          refine ⟨?_, ?_⟩
          · rw [h1, ← ht]
          · rw [← hrun]
            exact hne
        case isFalse => exact absurd h (by simp)
    case h_2 => exact absurd h (by simp)
  case isFalse => exact absurd h (by simp)

/-- The termination measure fact for the complex-term scan loop. -/
def tryMatchComplex_lt {cs run rest2 : List Char}
    (h : tryMatchComplex cs = some (run, rest2)) : rest2.length < cs.length := by
  have := (tryMatchComplex_shape h).1
  rw [this]
  simp [List.length_append, complexOpen]
  omega

/-- The exec loop of the complex-word scan in renderSummary: same shape as the
bold loop, emitting complex parts for matches of the complex-term pattern. -/
def complexAux (pending : List Char) (cs : List Char) : List InlinePart :=
  match h : tryMatchComplex cs with
  | some (run, rest2) =>
    flushPlain pending ++ InlinePart.complex (String.mk run) :: complexAux [] rest2
  | none =>
    match cs with
    | [] => flushPlain pending
    | c :: rest => complexAux (pending ++ [c]) rest
termination_by cs.length
decreasing_by
  · exact tryMatchComplex_lt h
  · simp

/-- The complex-word pass renderSummary runs over each paragraph content or
list item, with the same whole-input fallback as parseMarkdownBold. -/
def complexParts (s : String) : List InlinePart :=
  if complexAux [] s.data = [] then [InlinePart.text s]
  else complexAux [] s.data

/-- How renderSummary renders one segment of the complex-word pass: a plain
segment goes through parseMarkdownBold (renderTextWithMarkdown), any other
segment is rendered as it is. -/
def expandInline (p : InlinePart) : List InlinePart :=
  match p with
  | InlinePart.text t => parseMarkdownBold t
  | other => [other]

/-- The full inline pipeline renderSummary applies to one leaf string: the
complex-word scan first, then every plain segment is rendered through
parseMarkdownBold; complex segments become the interactive spans. -/
def renderInline (s : String) : List InlinePart :=
  (complexParts s).flatMap expandInline

/-- The marked-up text one part stands for: its payload with the markup
syntax it was recognized from restored. -/
def rebuildPart : InlinePart → String
  | InlinePart.text c => c
  | InlinePart.bold c => "**" ++ c ++ "**"
  | InlinePart.complex c => "[COMPLEX:" ++ c ++ "]"

/-- The concatenated marked-up text of a sequence of parts. -/
def rebuild : List InlinePart → String
  | [] => ""
  | p :: ps => rebuildPart p ++ rebuild ps

/-- The raw text payload of one part, markup syntax stripped. -/
def partContent : InlinePart → String
  | InlinePart.text c => c
  | InlinePart.bold c => c
  | InlinePart.complex c => c

/-- The concatenated raw text payloads of a sequence of parts. -/
def concatPayloads : List InlinePart → String
  | [] => ""
  | p :: ps => partContent p ++ concatPayloads ps

/-- Whether the scanner step succeeds at some position of the list: a global
regex search for the corresponding pattern finds a match somewhere. -/
def hasMatch (tm : List Char → Option (List Char × List Char)) : List Char → Bool
  | [] => (tm []).isSome
  | c :: rest => (tm (c :: rest)).isSome || hasMatch tm rest

/-- Whether a character is whitespace for the JS regex class of whitespace
and for the trim method: space, tab, line feed, carriage return, vertical
tab, form feed, and the unicode space characters. -/
def jsWs (c : Char) : Bool :=
  c.toNat == 0x20 || c.toNat == 0x9 || c.toNat == 0xa || c.toNat == 0xb ||
  c.toNat == 0xc || c.toNat == 0xd || c.toNat == 0xa0 || c.toNat == 0x1680 ||
  (0x2000 ≤ c.toNat && c.toNat ≤ 0x200a) || c.toNat == 0x2028 ||
  c.toNat == 0x2029 || c.toNat == 0x202f || c.toNat == 0x205f ||
  c.toNat == 0x3000 || c.toNat == 0xfeff

/-- Whether a character is a line terminator, which the JS dot never
matches: line feed, carriage return, line separator, paragraph separator. -/
def isLineTerm (c : Char) : Bool :=
  c.toNat == 0xa || c.toNat == 0xd || c.toNat == 0x2028 || c.toNat == 0x2029

/-- The trim method of JS strings: strip whitespace from both ends. -/
def jsTrim (s : String) : String :=
  String.mk (((s.data.dropWhile jsWs).reverse.dropWhile jsWs).reverse)

/-- The bullet test of parseMarkdownLists: the match of a line against the
anchored pattern of optional leading whitespace, a dash or star, mandatory
whitespace, then at least one character up to the end of the line. Returns
the captured content (group one, untrimmed). The two non-obvious regex
behaviors are modelled explicitly: the mandatory-whitespace part is greedy,
so the content is what follows the maximal whitespace run; when nothing
follows that run, the engine gives one whitespace character back to the
content group, which succeeds only when at least one whitespace character
remains for the mandatory part and the given-back character is not a line
terminator (the dot rejects those); and a line terminator anywhere in the
content makes the whole match fail. -/
def bulletMatch (line : String) : Option String :=
  match line.data.dropWhile jsWs with
  | m :: rest2 =>
    if m = '-' ∨ m = '*' then
      if (rest2.takeWhile jsWs).isEmpty then none
      else if (rest2.dropWhile jsWs).isEmpty then
        match (rest2.takeWhile jsWs).reverse with
        | w :: wrest =>
          if wrest.isEmpty then none
          else if isLineTerm w then none
          else some (String.mk [w])
        | [] => none
      else if (rest2.dropWhile jsWs).any isLineTerm then none
      else some (String.mk (rest2.dropWhile jsWs))
    else none
  | [] => none

/-- The split method of JS strings at the newline separator, on character
lists: the empty string gives one empty piece, and every newline closes the
current piece and opens the next. -/
def splitLinesChars (cs : List Char) : List (List Char) :=
  match cs with
  | [] => [[]]
  | c :: rest =>
    if c = '\n' then [] :: splitLinesChars rest
    else
      match splitLinesChars rest with
      | l :: ls => (c :: l) :: ls
      | [] => [[c]]

/-- The split of a string into its lines, as the JS split method on the
newline separator returns them. -/
def splitLines (s : String) : List String :=
  (splitLinesChars s.data).map String.mk

/-- The join method of JS arrays with a separator. -/
def jsJoin (sep : String) : List String → String
  | [] => ""
  | [s] => s
  | s :: rest => s ++ sep ++ jsJoin sep rest

/-- One block of the rendered summary: a paragraph holding its raw joined
lines, or a bullet list holding its trimmed items in order. -/
inductive Block where
  | paragraph (content : String)
  | list (items : List String)
deriving DecidableEq

/-- flushParagraph of parseMarkdownLists: emit the accumulated paragraph
lines joined by newline, only when lines were accumulated. -/
def flushP (para : List String) : List Block :=
  if para = [] then [] else [Block.paragraph (jsJoin "\n" para)]

/-- flushList of parseMarkdownLists: emit the accumulated bullet items, only
when items were accumulated. -/
def flushL (items : List String) : List Block :=
  if items = [] then [] else [Block.list items]

/-- The accumulators of the line loop of parseMarkdownLists. -/
structure ListsState where
  result : List Block
  curList : List String
  curPara : List String
deriving DecidableEq

/-- One iteration of the line loop of parseMarkdownLists: a bullet line
flushes the open paragraph and appends its trimmed content to the open list;
any other line flushes the open list and is appended to the paragraph when
it is non-blank or a paragraph is already open, and dropped otherwise. -/
def listsStep (st : ListsState) (line : String) : ListsState :=
  match bulletMatch line with
  | some item =>
    { result := st.result ++ flushP st.curPara
      curList := st.curList ++ [jsTrim item]
      curPara := [] }
  | none =>
    if jsTrim line ≠ "" ∨ st.curPara ≠ [] then
      { result := st.result ++ flushL st.curList
        curList := []
        curPara := st.curPara ++ [line] }
    else
      { result := st.result ++ flushL st.curList
        curList := []
        curPara := st.curPara }

/-- parseMarkdownLists of App.jsx: split the input on newlines, run the line
loop, flush the open paragraph and then the open list, and fall back to one
paragraph holding the whole input when nothing was emitted. -/
def parseMarkdownLists (text : String) : List Block :=
  if ((splitLines text).foldl listsStep ⟨[], [], []⟩).result
      ++ flushP ((splitLines text).foldl listsStep ⟨[], [], []⟩).curPara
      ++ flushL ((splitLines text).foldl listsStep ⟨[], [], []⟩).curList = [] then
    [Block.paragraph text]
  else
    ((splitLines text).foldl listsStep ⟨[], [], []⟩).result
      ++ flushP ((splitLines text).foldl listsStep ⟨[], [], []⟩).curPara
      ++ flushL ((splitLines text).foldl listsStep ⟨[], [], []⟩).curList

/-- A selected file as the component sees it: the name and declared MIME type
of the browser File object (the only fields the logic reads). -/
structure JsFile where
  name : String
  type : String
deriving DecidableEq

/-- A popup anchor position. The source computes it from the bounding
rectangle of the clicked element; the geometry is outside the model, so
handlers take the computed position as an input. -/
structure Anchor where
  x : Int
  y : Int
deriving DecidableEq

/-- The role tag of a chat message. -/
inductive Role where
  | user
  | assistant
deriving DecidableEq

/-- One chat message: role tag, text, and the id taken from the clock at
creation. -/
structure ChatMessage where
  type : Role
  content : String
  id : Nat
deriving DecidableEq

/-- The complete component state of App.jsx: one field per useState hook that
carries session logic. -/
structure AppState where
  inputText : String
  summary : String
  question : String
  chatMessages : List ChatMessage
  isGeneratingSummary : Bool
  isAnswering : Bool
  error : String
  selectedFile : Option JsFile
  isDragging : Bool
  isProcessingFile : Bool
  clickedWord : Option String
  wordDefinition : String
  isLoadingDefinition : Bool
  definitionPosition : Anchor
deriving DecidableEq

/-- The state at session start: every string empty, every flag false,
nothing selected, no popover. -/
def initialState : AppState where
  inputText := ""
  summary := ""
  question := ""
  chatMessages := []
  isGeneratingSummary := false
  isAnswering := false
  error := ""
  selectedFile := none
  isDragging := false
  isProcessingFile := false
  clickedWord := none
  wordDefinition := ""
  isLoadingDefinition := false
  definitionPosition := ⟨0, 0⟩

/-- The toLowerCase method, restricted to the ASCII lowering the file-name
checks rely on. -/
def jsToLower (s : String) : String :=
  String.mk (s.data.map Char.toLower)

/-- The endsWith method of JS strings, on the character lists. -/
def jsEndsWith (s suffix : String) : Bool :=
  suffix.data.isSuffixOf s.data

/-- The PDF test the component repeats: declared type application slash pdf,
or a lowercased name ending in dot pdf. -/
def isPdfFile (f : JsFile) : Bool :=
  f.type == "application/pdf" || jsEndsWith (jsToLower f.name) ".pdf"

/-- Whether the PDF branch of handleGenerateSummary applies: a file is
selected and it passes the PDF test. -/
def summarizePdfReady (st : AppState) : Bool :=
  match st.selectedFile with
  | some f => isPdfFile f
  | none => false

/-- A summarize request as handed to the API wrapper: either the selected
file forwarded with the PDF media type, or the input text embedded in the
prompt. -/
inductive SummaryRequest where
  | pdf (file : Option JsFile)
  | fromText (t : String)
deriving DecidableEq

/-- The synchronous phase of handleGenerateSummary: reject with a local error
when the input text is blank and no PDF is ready; otherwise raise the busy
flag, clear the error, the summary and the chat, and dispatch the request. -/
def handleGenerateSummaryStart (st : AppState) : AppState × Option SummaryRequest :=
  if jsTrim st.inputText = "" ∧ summarizePdfReady st = false then
    ({ st with error := "Please enter some text or upload a file to summarize." }, none)
  else if summarizePdfReady st then
    ({ st with isGeneratingSummary := true, error := "", summary := "", chatMessages := [] },
      some (SummaryRequest.pdf st.selectedFile))
  else
    ({ st with isGeneratingSummary := true, error := "", summary := "", chatMessages := [] },
      some (SummaryRequest.fromText st.inputText))

/-- The resolution phase of handleGenerateSummary, applied when the awaited
call settles: store the text on success; on failure set the error to the
failure message, or to the fixed fallback when the message is empty. The
finally clause clears the busy flag either way. -/
def handleGenerateSummaryResolve (st : AppState) (res : Except String String) : AppState :=
  match res with
  | Except.ok r => { st with summary := r, isGeneratingSummary := false }
  | Except.error m =>
    { st with
        error := if m ≠ "" then m else "Failed to generate summary. Please check your API key."
        isGeneratingSummary := false }

/-- The synchronous phase of handleAskQuestion at clock value now: reject a
blank question or a missing summary with a local error; otherwise append the
user message optimistically, clear the input and the error, raise the busy
flag, and dispatch the summary together with the trimmed question. -/
def handleAskQuestionStart (st : AppState) (now : Nat) : AppState × Option (String × String) :=
  if jsTrim st.question = "" then
    ({ st with error := "Please enter a question." }, none)
  else if st.summary = "" then
    ({ st with error := "Please generate a summary first." }, none)
  else
    ({ st with
        chatMessages := st.chatMessages ++ [⟨Role.user, jsTrim st.question, now⟩]
        question := ""
        isAnswering := true
        error := "" },
      some (st.summary, jsTrim st.question))

/-- The resolution phase of handleAskQuestion at clock value now: on success
append the assistant answer; on failure set the error to the failure message
or the fixed fallback, and append the fixed apologetic assistant message so
the failure is visible in the chat. The finally clause clears the busy flag
either way. -/
def handleAskQuestionResolve (st : AppState) (res : Except String String) (now : Nat) :
    AppState :=
  match res with
  | Except.ok r =>
    { st with
        chatMessages := st.chatMessages ++ [⟨Role.assistant, r, now + 1⟩]
        isAnswering := false }
  | Except.error m =>
    { st with
        error := if m ≠ "" then m else "Failed to answer question. Please check your API key."
        chatMessages :=
          st.chatMessages ++
            [⟨Role.assistant, "Sorry, I encountered an error. Please try again.", now + 1⟩]
        isAnswering := false }

/-- The file types handleFileSelect accepts by declared MIME type. -/
def validTypes : List String :=
  ["text/plain", "text/markdown", "text/html", "application/json", "text/csv",
    "application/pdf"]

/-- The file extensions handleFileSelect accepts on the lowercased name. -/
def validExtensions : List String :=
  [".txt", ".md", ".json", ".csv", ".html", ".pdf"]

/-- The acceptance test of handleFileSelect. -/
def isValidFile (f : JsFile) : Bool :=
  validTypes.contains f.type ||
    validExtensions.any (fun ext => jsEndsWith (jsToLower f.name) ext)

/-- What the synchronous phase of handleFileSelect left pending: the file was
rejected, a PDF was stored for direct upload, or a FileReader was started on
a text file and its callback is still outstanding. -/
inductive FileSelectOutcome where
  | rejected
  | pdfStored
  | readerStarted
deriving DecidableEq

/-- The synchronous phase of handleFileSelect: reject an invalid file with a
local error; otherwise store the file, clear the error and the previous input
text, and raise the processing flag, which is lowered at once for a PDF
(stored for direct upload) and stays raised for a text file until the reader
callback fires. -/
def handleFileSelect (st : AppState) (f : JsFile) : AppState × FileSelectOutcome :=
  if isValidFile f = false then
    ({ st with
        error := "Please select a text file (.txt, .md, .json, .csv, .html) or PDF file (.pdf) or paste your text directly." },
      FileSelectOutcome.rejected)
  else if isPdfFile f then
    ({ st with selectedFile := some f, error := "", inputText := "", isProcessingFile := false },
      FileSelectOutcome.pdfStored)
  else
    ({ st with selectedFile := some f, error := "", inputText := "", isProcessingFile := true },
      FileSelectOutcome.readerStarted)

/-- The onload callback of the FileReader started for a text file: store the
read content as input text and lower the processing flag. -/
def readerOnLoad (st : AppState) (content : String) : AppState :=
  { st with inputText := content, isProcessingFile := false }

/-- The onerror callback of the FileReader: set the read-failure error and
lower the processing flag. -/
def readerOnError (st : AppState) : AppState :=
  { st with error := "Failed to read file. Please try again.", isProcessingFile := false }

/-- The onChange handler of the input textarea: store the typed value as the
input text and nothing else. -/
def textareaOnChange (st : AppState) (value : String) : AppState :=
  { st with inputText := value }

/-- handleClearFile: drop the selected file and the input text. -/
def handleClearFile (st : AppState) : AppState :=
  { st with selectedFile := none, inputText := "" }

/-- The synchronous phase of handleWordClick on a complex term at the given
anchor: the popup position is stored first; a second activation of the word
already shown with nonempty definition text closes the popover and dispatches
nothing; any other activation stores the word with empty definition text,
raises the loading flag, and dispatches a definition request (the returned
flag). -/
def handleWordClickStart (st : AppState) (word : String) (pos : Anchor) :
    AppState × Bool :=
  if st.clickedWord = some word ∧ st.wordDefinition ≠ "" then
    ({ st with definitionPosition := pos, clickedWord := none, wordDefinition := "" }, false)
  else
    ({ st with
        definitionPosition := pos
        clickedWord := some word
        wordDefinition := ""
        isLoadingDefinition := true }, true)

/-- The resolution phase of handleWordClick, applied when the awaited
definition lookup settles: store the definition text on success, or the fixed
failure text on failure; the finally clause lowers the loading flag either
way. The source checks nothing else: in particular it does not compare the
resolved word against the currently clicked word. -/
def handleWordClickResolve (st : AppState) (res : Except Unit String) : AppState :=
  match res with
  | Except.ok d => { st with wordDefinition := d, isLoadingDefinition := false }
  | Except.error _ =>
    { st with
        wordDefinition := "Failed to load definition. Please try again."
        isLoadingDefinition := false }

/-- closeDefinition of App.jsx: clear the clicked word and its definition. -/
def closeDefinition (st : AppState) : AppState :=
  { st with clickedWord := none, wordDefinition := "" }

/- Helper equations and lemmas about the scan loops. -/

theorem boldAux_eq_some {cs run rest2 : List Char} (pending : List Char)
    (h : tryMatchBold cs = some (run, rest2)) :
    boldAux pending cs
      = flushPlain pending ++ InlinePart.bold (String.mk run) :: boldAux [] rest2 := by
  rw [boldAux.eq_def]
  split
  · rename_i run' rest2' heq
    rw [h] at heq
    simp only [Option.some.injEq, Prod.mk.injEq] at heq
    rw [heq.1, heq.2]
  · rename_i heq
    rw [h] at heq
    simp at heq

theorem boldAux_eq_none {cs : List Char} (pending : List Char)
    (h : tryMatchBold cs = none) :
    boldAux pending cs
      = match cs with
        | [] => flushPlain pending
        | c :: rest => boldAux (pending ++ [c]) rest := by
  rw [boldAux.eq_def]
  split
  · rename_i run' rest2' heq
    rw [h] at heq
    simp at heq
  · rfl

theorem complexAux_eq_some {cs run rest2 : List Char} (pending : List Char)
    (h : tryMatchComplex cs = some (run, rest2)) :
    complexAux pending cs
      = flushPlain pending ++ InlinePart.complex (String.mk run) :: complexAux [] rest2 := by
  rw [complexAux.eq_def]
  split
  · rename_i run' rest2' heq
    rw [h] at heq
    simp only [Option.some.injEq, Prod.mk.injEq] at heq
    rw [heq.1, heq.2]
  · rename_i heq
    rw [h] at heq
    simp at heq

theorem complexAux_eq_none {cs : List Char} (pending : List Char)
    (h : tryMatchComplex cs = none) :
    complexAux pending cs
      = match cs with
        | [] => flushPlain pending
        | c :: rest => complexAux (pending ++ [c]) rest := by
  rw [complexAux.eq_def]
  split
  · rename_i run' rest2' heq
    rw [h] at heq
    simp at heq
  · rfl

theorem rebuild_append (a b : List InlinePart) :
    rebuild (a ++ b) = rebuild a ++ rebuild b := by
  induction a with
  | nil => simp [rebuild, String.empty_append]
  | cons p ps ih => simp [rebuild, ih, String.append_assoc]

theorem rebuild_flushPlain (pending : List Char) :
    rebuild (flushPlain pending) = String.mk pending := by
  unfold flushPlain
  split
  · rename_i h
    rw [h]
    rfl
  · simp [rebuild, rebuildPart, String.append_empty]

theorem rebuild_boldAux (pending cs : List Char) :
    rebuild (boldAux pending cs) = String.mk (pending ++ cs) := by
  induction pending, cs using boldAux.induct with
  | case1 pending cs run rest2 h ih =>
    rw [boldAux_eq_some pending h, rebuild_append, rebuild_flushPlain]
    have hshape := (tryMatchBold_shape h).1
    apply String.ext
    simp only [String.data_append, rebuild, rebuildPart, ih, hshape]
    simp [String.data_append]
  | case2 pending h1 h2 =>
    rw [boldAux_eq_none pending h1]
    simp [rebuild_flushPlain]
  | case3 pending c rest h1 h2 ih =>
    rw [boldAux_eq_none pending h1]
    simpa using ih

theorem rebuild_complexAux (pending cs : List Char) :
    rebuild (complexAux pending cs) = String.mk (pending ++ cs) := by
  induction pending, cs using complexAux.induct with
  | case1 pending cs run rest2 h ih =>
    rw [complexAux_eq_some pending h, rebuild_append, rebuild_flushPlain]
    have hshape := (tryMatchComplex_shape h).1
    apply String.ext
    simp only [String.data_append, rebuild, rebuildPart, ih, hshape]
    simp [String.data_append, complexOpen]
  | case2 pending h1 h2 =>
    rw [complexAux_eq_none pending h1]
    simp [rebuild_flushPlain]
  | case3 pending c rest h1 h2 ih =>
    rw [complexAux_eq_none pending h1]
    simpa using ih

theorem rebuild_parseMarkdownBold (s : String) :
    rebuild (parseMarkdownBold s) = s := by
  unfold parseMarkdownBold
  split
  · simp [rebuild, rebuildPart, String.append_empty]
  · rw [rebuild_boldAux]
    rw [List.nil_append]

theorem rebuild_complexParts (s : String) :
    rebuild (complexParts s) = s := by
  unfold complexParts
  split
  · simp [rebuild, rebuildPart, String.append_empty]
  · rw [rebuild_complexAux]
    rw [List.nil_append]

theorem rebuild_expandInline (l : List InlinePart) :
    rebuild (l.flatMap expandInline) = rebuild l := by
  induction l with
  | nil => rfl
  | cons p ps ih =>
    rw [List.flatMap_cons, rebuild_append, ih]
    cases p with
    | text t =>
      show rebuild (parseMarkdownBold t) ++ rebuild ps = rebuild (InlinePart.text t :: ps)
      rw [rebuild_parseMarkdownBold]
      rfl
    | bold b => simp [expandInline, rebuild, rebuildPart, String.append_empty]
    | complex c => simp [expandInline, rebuild, rebuildPart, String.append_empty]

theorem rebuild_renderInline (s : String) :
    rebuild (renderInline s) = s := by
  unfold renderInline
  rw [rebuild_expandInline, rebuild_complexParts]

theorem hasMatch_cons_false {tm : List Char → Option (List Char × List Char)}
    {c : Char} {rest : List Char} (h : hasMatch tm (c :: rest) = false) :
    tm (c :: rest) = none ∧ hasMatch tm rest = false := by
  simp only [hasMatch] at h
  cases e : tm (c :: rest) with
  | some v =>
    rw [e] at h
    simp at h
  | none =>
    rw [e] at h
    simp at h
    exact ⟨rfl, h⟩

theorem boldAux_noMatch {cs : List Char} (h : hasMatch tryMatchBold cs = false) :
    ∀ pending, boldAux pending cs = flushPlain (pending ++ cs) := by
  induction cs with
  | nil =>
    intro pending
    rw [boldAux_eq_none pending (by rfl)]
    simp
  | cons c rest ih =>
    intro pending
    obtain ⟨h1, h2⟩ := hasMatch_cons_false h
    rw [boldAux_eq_none pending h1]
    show boldAux (pending ++ [c]) rest = _
    rw [ih h2]
    simp

theorem complexAux_noMatch {cs : List Char} (h : hasMatch tryMatchComplex cs = false) :
    ∀ pending, complexAux pending cs = flushPlain (pending ++ cs) := by
  induction cs with
  | nil =>
    intro pending
    rw [complexAux_eq_none pending (by rfl)]
    simp
  | cons c rest ih =>
    intro pending
    obtain ⟨h1, h2⟩ := hasMatch_cons_false h
    rw [complexAux_eq_none pending h1]
    show complexAux (pending ++ [c]) rest = _
    rw [ih h2]
    simp

theorem parseMarkdownBold_noMatch {s : String}
    (h : hasMatch tryMatchBold s.data = false) :
    parseMarkdownBold s = [InlinePart.text s] := by
  unfold parseMarkdownBold
  rw [boldAux_noMatch h, List.nil_append]
  cases hs : s.data with
  | nil => simp [flushPlain]
  | cons c rest =>
    have hflush : flushPlain (c :: rest) = [InlinePart.text (String.mk (c :: rest))] := by
      simp [flushPlain]
    rw [hflush, if_neg (by simp), ← hs]

theorem complexParts_noMatch {s : String}
    (h : hasMatch tryMatchComplex s.data = false) :
    complexParts s = [InlinePart.text s] := by
  unfold complexParts
  rw [complexAux_noMatch h, List.nil_append]
  cases hs : s.data with
  | nil => simp [flushPlain]
  | cons c rest =>
    have hflush : flushPlain (c :: rest) = [InlinePart.text (String.mk (c :: rest))] := by
      simp [flushPlain]
    rw [hflush, if_neg (by simp), ← hs]

/-- C9: the four-line input of one paragraph line, two bullet lines and a
final paragraph line parses to exactly three blocks in order, the two
consecutive bullet lines grouped into a single bullet list. -/
theorem c9_bullet_grouping :
    parseMarkdownLists "para one\n- item A\n- item B\nparas two"
      = [Block.paragraph "para one", Block.list ["item A", "item B"],
         Block.paragraph "paras two"] := by
  decide

/-- C5 counterexample: in the input of a bullet line, a blank line and a
final line, content has already been accumulated when the blank line is
seen (the bullet item and the closed list), yet the blank line is dropped:
the final paragraph holds the last line alone, not the blank line joined
with it. This refutes the claim that the only dropped lines are blank lines
at the very start. -/
theorem c5_blank_after_list_dropped :
    parseMarkdownLists "- x\n\na" = [Block.list ["x"], Block.paragraph "a"]
      ∧ parseMarkdownLists "- x\n\na" ≠ [Block.list ["x"], Block.paragraph "\na"] := by
  decide

theorem listsStep_none {line : String} (st : ListsState) (h : bulletMatch line = none) :
    listsStep st line
      = if jsTrim line ≠ "" ∨ st.curPara ≠ [] then
          { result := st.result ++ flushL st.curList, curList := [],
            curPara := st.curPara ++ [line] }
        else
          { result := st.result ++ flushL st.curList, curList := [],
            curPara := st.curPara } := by
  unfold listsStep
  rw [h]

/-- C5 amended: every non-bullet line closes any open bullet list; it is
appended to the open paragraph when it is non-blank or a paragraph is
already open, and it is dropped exactly when it is blank and no paragraph is
open, which happens at the very start and also right after a bullet line.
Blank lines between paragraph lines are kept (they accumulate into the open
paragraph) and a leading blank line is dropped. -/
theorem c5_nonbullet_line_behavior (st : ListsState) (line : String)
    (h : bulletMatch line = none) :
    (listsStep st line).result = st.result ++ flushL st.curList
      ∧ (listsStep st line).curList = []
      ∧ ((jsTrim line ≠ "" ∨ st.curPara ≠ []) →
          (listsStep st line).curPara = st.curPara ++ [line])
      ∧ (jsTrim line = "" ∧ st.curPara = [] → (listsStep st line).curPara = [])
      ∧ parseMarkdownLists "a\n\nb" = [Block.paragraph "a\n\nb"]
      ∧ parseMarkdownLists "\na" = [Block.paragraph "a"] := by
  rw [listsStep_none st h]
  refine ⟨?_, ?_, ?_, ?_, by decide, by decide⟩
  · by_cases hcond : jsTrim line ≠ "" ∨ st.curPara ≠ []
    · rw [if_pos hcond]
    · rw [if_neg hcond]
  · by_cases hcond : jsTrim line ≠ "" ∨ st.curPara ≠ []
    · rw [if_pos hcond]
    · rw [if_neg hcond]
  · intro hcond
    rw [if_pos hcond]
  · rintro ⟨hb, hp⟩
    rw [if_neg (by simp [hb, hp])]
    exact hp

/-- C5 witness: the step at a blank line right after a bullet list flushes
the list and drops the line. -/
theorem c5_nonbullet_line_behavior_witness :
    (listsStep ⟨[], ["x"], []⟩ "").result = [] ++ flushL ["x"]
      ∧ (listsStep ⟨[], ["x"], []⟩ "").curList = [] :=
  ⟨(c5_nonbullet_line_behavior ⟨[], ["x"], []⟩ "" (by decide)).1,
   (c5_nonbullet_line_behavior ⟨[], ["x"], []⟩ "" (by decide)).2.1⟩

/-- C2 counterexample: the empty input yields one plain span with empty
text, produced by the whole-input fallback, and not the empty sequence the
claim states, both for parseMarkdownBold alone and for the full inline
pipeline. -/
theorem c2_empty_counterexample :
    parseMarkdownBold "" = [InlinePart.text ""]
      ∧ renderInline "" = [InlinePart.text ""]
      ∧ parseMarkdownBold "" ≠ []
      ∧ renderInline "" ≠ [] := by
  have hb : parseMarkdownBold "" = [InlinePart.text ""] :=
    parseMarkdownBold_noMatch (s := "") (by decide)
  have hr : renderInline "" = [InlinePart.text ""] := by
    unfold renderInline
    rw [complexParts_noMatch (s := "") (by decide)]
    simp [expandInline]
    exact hb
  refine ⟨hb, hr, by rw [hb]; simp, by rw [hr]; simp⟩

/-- C2 amended: for every input string in which neither the complex-term
pattern nor the bold pattern matches anywhere, the inline pipeline returns
exactly one plain span whose text equals the input; this includes the empty
input, which yields that single plain span with empty text rather than an
empty sequence. -/
theorem c2_no_markup_single_plain (s : String)
    (hc : hasMatch tryMatchComplex s.data = false)
    (hb : hasMatch tryMatchBold s.data = false) :
    renderInline s = [InlinePart.text s] := by
  unfold renderInline
  rw [complexParts_noMatch hc]
  simp [expandInline]
  exact parseMarkdownBold_noMatch hb

/-- C2 witness: a concrete markup-free input parses to the single plain
span holding it. -/
theorem c2_no_markup_single_plain_witness :
    renderInline "hello world" = [InlinePart.text "hello world"] :=
  c2_no_markup_single_plain "hello world" (by decide) (by decide)

/-- C6: the inline pipeline is a total function, and restoring the
recognized markup syntax around each payload of its output reproduces the
input exactly, for every input string: equivalently, the concatenated
payloads equal the input with the recognized bold and complex-term marker
syntax stripped, with nothing lost or reordered. For the unterminated-marker
input with an unclosed bold opener, the output degrades to plain text and
the raw payload concatenation equals the input verbatim. -/
theorem c6_no_information_loss :
    (∀ s : String, rebuild (renderInline s) = s)
      ∧ concatPayloads (renderInline "a **b c") = "a **b c" := by
  refine ⟨rebuild_renderInline, ?_⟩
  have h : renderInline "a **b c" = [InlinePart.text "a **b c"] := by
    unfold renderInline
    rw [complexParts_noMatch (s := "a **b c") (by decide)]
    simp [expandInline]
    exact parseMarkdownBold_noMatch (s := "a **b c") (by decide)
  rw [h]
  simp [concatPayloads, partContent, String.append_empty]

/-- C1 at the failing interleaving: activate term A (its lookup dispatched
and loading), activate term B before the result of A arrives (a second
lookup dispatched), then let the lookup of A resolve. The resolution stores
the definition text of A while the clicked word is still B, and lowers the
loading flag although the request for B is still outstanding: no
term-identity check discards the stale result, contradicting the claim but
matching the race the design notes call an oversight of the source. -/
theorem c1_stale_definition_overwrites :
    (handleWordClickStart initialState "A" ⟨1, 1⟩).2 = true
      ∧ (handleWordClickStart
          (handleWordClickStart initialState "A" ⟨1, 1⟩).1 "B" ⟨2, 2⟩).2 = true
      ∧ (handleWordClickResolve
          (handleWordClickStart
            (handleWordClickStart initialState "A" ⟨1, 1⟩).1 "B" ⟨2, 2⟩).1
          (Except.ok "definition of A")).clickedWord = some "B"
      ∧ (handleWordClickResolve
          (handleWordClickStart
            (handleWordClickStart initialState "A" ⟨1, 1⟩).1 "B" ⟨2, 2⟩).1
          (Except.ok "definition of A")).wordDefinition = "definition of A"
      ∧ (handleWordClickResolve
          (handleWordClickStart
            (handleWordClickStart initialState "A" ⟨1, 1⟩).1 "B" ⟨2, 2⟩).1
          (Except.ok "definition of A")).isLoadingDefinition = false := by
  decide

/-- C3 counterexample: with an attachment selected, typing in the textarea
stores the text but leaves the attachment selected, so both input sources
are active at once; the claim that setting input text clears the selected
attachment fails. -/
theorem c3_typing_keeps_attachment :
    (textareaOnChange
        { initialState with selectedFile := some ⟨"paper.pdf", "application/pdf"⟩ }
        "hello").selectedFile = some ⟨"paper.pdf", "application/pdf"⟩
      ∧ (textareaOnChange
          { initialState with selectedFile := some ⟨"paper.pdf", "application/pdf"⟩ }
          "hello").inputText = "hello" := by
  decide

/-- C3 amended: selecting a valid attachment clears the input text and
stores the file, but setting input text leaves the selected attachment
untouched, so after typing with a file selected both sources are populated
at once; only the explicit file removal clears both. -/
theorem c3_mutual_exclusivity_amended (st : AppState) (f : JsFile) (v : String)
    (h : isValidFile f = true) :
    (handleFileSelect st f).1.inputText = ""
      ∧ (handleFileSelect st f).1.selectedFile = some f
      ∧ (textareaOnChange st v).selectedFile = st.selectedFile
      ∧ (textareaOnChange st v).inputText = v
      ∧ (handleClearFile st).selectedFile = none
      ∧ (handleClearFile st).inputText = "" := by
  have h2 : ¬(isValidFile f = false) := by simp [h]
  refine ⟨?_, ?_, rfl, rfl, rfl, rfl⟩
  · unfold handleFileSelect
    rw [if_neg h2]
    by_cases hp : isPdfFile f = true
    · rw [if_pos hp]
    · rw [if_neg hp]
  · unfold handleFileSelect
    rw [if_neg h2]
    by_cases hp : isPdfFile f = true
    · rw [if_pos hp]
    · rw [if_neg hp]

/-- C3 witness: selecting a plain text file clears the input text. -/
theorem c3_mutual_exclusivity_amended_witness :
    (handleFileSelect { initialState with inputText := "old draft" }
        ⟨"notes.txt", "text/plain"⟩).1.inputText = ""
      ∧ (handleFileSelect { initialState with inputText := "old draft" }
          ⟨"notes.txt", "text/plain"⟩).1.selectedFile = some ⟨"notes.txt", "text/plain"⟩ :=
  ⟨(c3_mutual_exclusivity_amended { initialState with inputText := "old draft" }
      ⟨"notes.txt", "text/plain"⟩ "hi" (by decide)).1,
   (c3_mutual_exclusivity_amended { initialState with inputText := "old draft" }
      ⟨"notes.txt", "text/plain"⟩ "hi" (by decide)).2.1⟩

/-- C4 counterexample: with a non-blank input text AND a selected PDF the
exclusive-or precondition of the claim fails, yet the code proceeds (the PDF
branch dispatches and no error is surfaced); and with a selected non-PDF
attachment and blank text the claim-side precondition of an attachment being
present holds, yet the code surfaces the local error and dispatches
nothing. -/
theorem c4_xor_counterexample :
    (handleGenerateSummaryStart
        { initialState with
            inputText := "hello"
            selectedFile := some ⟨"paper.pdf", "application/pdf"⟩ }).2
        = some (SummaryRequest.pdf (some ⟨"paper.pdf", "application/pdf"⟩))
      ∧ (handleGenerateSummaryStart
          { initialState with
              inputText := "hello"
              selectedFile := some ⟨"paper.pdf", "application/pdf"⟩ }).1.error = ""
      ∧ (handleGenerateSummaryStart
          { initialState with
              inputText := "hello"
              selectedFile := some ⟨"paper.pdf", "application/pdf"⟩ }).1.isGeneratingSummary
          = true
      ∧ (handleGenerateSummaryStart
          { initialState with selectedFile := some ⟨"data.csv", "text/csv"⟩ }).2 = none
      ∧ (handleGenerateSummaryStart
          { initialState with selectedFile := some ⟨"data.csv", "text/csv"⟩ }).1.error
          = "Please enter some text or upload a file to summarize." := by
  decide

/-- C4 amended: starting a summarize requires a non-blank input text or a
selected PDF attachment, inclusively (when both are present the attachment
branch is used); when the precondition holds the summarizing busy flag is
raised and the summary, the chat history and the error are cleared as the
request is dispatched; when it fails the error is set immediately and
locally, nothing is dispatched, and summary, chat and busy flag are left
unchanged. -/
theorem c4_summarize_contract_amended (st : AppState) :
    (¬(jsTrim st.inputText = "" ∧ summarizePdfReady st = false) →
        (handleGenerateSummaryStart st).1.isGeneratingSummary = true
          ∧ (handleGenerateSummaryStart st).1.summary = ""
          ∧ (handleGenerateSummaryStart st).1.chatMessages = []
          ∧ (handleGenerateSummaryStart st).1.error = ""
          ∧ (handleGenerateSummaryStart st).2.isSome = true)
      ∧ (jsTrim st.inputText = "" ∧ summarizePdfReady st = false →
          (handleGenerateSummaryStart st).1.error
              = "Please enter some text or upload a file to summarize."
            ∧ (handleGenerateSummaryStart st).2 = none
            ∧ (handleGenerateSummaryStart st).1.summary = st.summary
            ∧ (handleGenerateSummaryStart st).1.chatMessages = st.chatMessages
            ∧ (handleGenerateSummaryStart st).1.isGeneratingSummary
                = st.isGeneratingSummary) := by
  constructor
  · intro h
    unfold handleGenerateSummaryStart
    rw [if_neg h]
    by_cases hp : summarizePdfReady st = true
    · rw [if_pos hp]
      exact ⟨rfl, rfl, rfl, rfl, rfl⟩
    · rw [if_neg hp]
      exact ⟨rfl, rfl, rfl, rfl, rfl⟩
  · intro h
    unfold handleGenerateSummaryStart
    rw [if_pos h]
    exact ⟨rfl, rfl, rfl, rfl, rfl⟩

/-- C4 witness: with text present the start raises the busy flag; with
nothing present it dispatches no request. -/
theorem c4_summarize_contract_amended_witness :
    (handleGenerateSummaryStart
        { initialState with inputText := "hi" }).1.isGeneratingSummary = true
      ∧ (handleGenerateSummaryStart initialState).2 = none :=
  ⟨((c4_summarize_contract_amended
      { initialState with inputText := "hi" }).1 (by decide)).1,
   ((c4_summarize_contract_amended initialState).2 (by decide)).2.1⟩

/-- C7: from a state with no popover open, activating a complex term opens a
loading popover and dispatches a lookup; once the lookup has resolved with a
nonempty definition, activating the same term again closes the popover (no
clicked word, no definition text) and dispatches nothing; activating it a
third time reopens it for that term in a fresh loading state with empty
definition text and a new dispatch. -/
theorem c7_idempotent_toggle (st : AppState) (w d : String) (p1 p2 p3 : Anchor)
    (hcw : st.clickedWord = none) (hd : d ≠ "") :
    let st1 := (handleWordClickStart st w p1).1
    let st2 := handleWordClickResolve st1 (Except.ok d)
    let r3 := handleWordClickStart st2 w p2
    let r4 := handleWordClickStart r3.1 w p3
    st1.clickedWord = some w ∧ st1.isLoadingDefinition = true
      ∧ (handleWordClickStart st w p1).2 = true
      ∧ st2.wordDefinition = d
      ∧ r3.1.clickedWord = none ∧ r3.1.wordDefinition = "" ∧ r3.2 = false
      ∧ r4.1.clickedWord = some w ∧ r4.1.wordDefinition = ""
      ∧ r4.1.isLoadingDefinition = true ∧ r4.2 = true := by
  intro st1 st2 r3 r4
  have h1 : (handleWordClickStart st w p1)
      = ({ st with
            definitionPosition := p1
            clickedWord := some w
            wordDefinition := ""
            isLoadingDefinition := true }, true) := by
    unfold handleWordClickStart
    rw [if_neg]
    rw [hcw]
    simp
  have h2 : st2 = { st with
      definitionPosition := p1
      clickedWord := some w
      wordDefinition := d
      isLoadingDefinition := false } := by
    show handleWordClickResolve (handleWordClickStart st w p1).1 (Except.ok d) = _
    rw [h1]
    rfl
  have h3 : r3 = ({ st with
      definitionPosition := p2
      clickedWord := none
      wordDefinition := ""
      isLoadingDefinition := false }, false) := by
    show handleWordClickStart st2 w p2 = _
    rw [h2]
    unfold handleWordClickStart
    rw [if_pos]
    exact ⟨rfl, hd⟩
  have h4 : r4 = ({ st with
      definitionPosition := p3
      clickedWord := some w
      wordDefinition := ""
      isLoadingDefinition := true }, true) := by
    show handleWordClickStart r3.1 w p3 = _
    rw [h3]
    unfold handleWordClickStart
    rw [if_neg]
    simp
  refine ⟨?_, ?_, ?_, ?_, ?_, ?_, ?_, ?_, ?_, ?_, ?_⟩
  · show (handleWordClickStart st w p1).1.clickedWord = some w
    rw [h1]
  · show (handleWordClickStart st w p1).1.isLoadingDefinition = true
    rw [h1]
  · rw [h1]
  · rw [h2]
  · rw [h3]
  · rw [h3]
  · rw [h3]
  · rw [h4]
  · rw [h4]
  · rw [h4]
  · rw [h4]

/-- C7 witness: the toggle sequence at a concrete term and definition. -/
theorem c7_idempotent_toggle_witness :
    let st1 := (handleWordClickStart initialState "mitochondria" ⟨1, 2⟩).1
    let st2 := handleWordClickResolve st1 (Except.ok "an organelle")
    let r3 := handleWordClickStart st2 "mitochondria" ⟨3, 4⟩
    let r4 := handleWordClickStart r3.1 "mitochondria" ⟨5, 6⟩
    st1.clickedWord = some "mitochondria" ∧ st1.isLoadingDefinition = true
      ∧ (handleWordClickStart initialState "mitochondria" ⟨1, 2⟩).2 = true
      ∧ st2.wordDefinition = "an organelle"
      ∧ r3.1.clickedWord = none ∧ r3.1.wordDefinition = "" ∧ r3.2 = false
      ∧ r4.1.clickedWord = some "mitochondria" ∧ r4.1.wordDefinition = ""
      ∧ r4.1.isLoadingDefinition = true ∧ r4.2 = true :=
  c7_idempotent_toggle initialState "mitochondria" "an organelle" ⟨1, 2⟩ ⟨3, 4⟩ ⟨5, 6⟩
    rfl (by decide)

/-- C8: with a non-blank question and a nonempty summary, asking appends the
user message and dispatches the summary with the trimmed question; when the
answer call then fails, the answering flag is cleared, the session error is
set from the failure, and exactly one assistant message with the fixed
fallback text is appended right after the user question, so the failure is
always visible in the transcript as its own chat entry, distinct from the
session error. -/
theorem c8_ask_failure_visible (st : AppState) (m : String) (t1 t2 : Nat)
    (hq : ¬jsTrim st.question = "") (hs : ¬st.summary = "") :
    (handleAskQuestionStart st t1).2 = some (st.summary, jsTrim st.question)
      ∧ handleAskQuestionResolve (handleAskQuestionStart st t1).1 (Except.error m) t2
          = { st with
                chatMessages := st.chatMessages
                  ++ [⟨Role.user, jsTrim st.question, t1⟩,
                      ⟨Role.assistant, "Sorry, I encountered an error. Please try again.",
                        t2 + 1⟩]
                question := ""
                isAnswering := false
                error := if m ≠ "" then m
                  else "Failed to answer question. Please check your API key." } := by
  have h1 : handleAskQuestionStart st t1
      = ({ st with
            chatMessages := st.chatMessages ++ [⟨Role.user, jsTrim st.question, t1⟩]
            question := ""
            isAnswering := true
            error := "" },
          some (st.summary, jsTrim st.question)) := by
    unfold handleAskQuestionStart
    rw [if_neg hq, if_neg hs]
  refine ⟨by rw [h1], ?_⟩
  rw [h1]
  unfold handleAskQuestionResolve
  simp [List.append_assoc]

/-- C8 witness: a concrete failed ask leaves the question followed by the
fixed fallback assistant entry. -/
theorem c8_ask_failure_visible_witness :
    (handleAskQuestionStart
        { initialState with summary := "S", question := "Why?" } 10).2
      = some ("S", "Why?") :=
  (c8_ask_failure_visible { initialState with summary := "S", question := "Why?" }
    "" 10 20 (by decide) (by decide)).1

/-- C10: when a definition lookup fails, the only fields that change are the
popover definition text, set to the fixed failure string, and the loading
flag, which is lowered; the session error, the summary, the chat transcript,
the input text, the selected file and the clicked word are unchanged. -/
theorem c10_fail_definition_frame (st : AppState) :
    (handleWordClickResolve st (Except.error ())).wordDefinition
        = "Failed to load definition. Please try again."
      ∧ (handleWordClickResolve st (Except.error ())).isLoadingDefinition = false
      ∧ (handleWordClickResolve st (Except.error ())).error = st.error
      ∧ (handleWordClickResolve st (Except.error ())).summary = st.summary
      ∧ (handleWordClickResolve st (Except.error ())).chatMessages = st.chatMessages
      ∧ (handleWordClickResolve st (Except.error ())).inputText = st.inputText
      ∧ (handleWordClickResolve st (Except.error ())).selectedFile = st.selectedFile
      ∧ (handleWordClickResolve st (Except.error ())).clickedWord = st.clickedWord
      ∧ (handleWordClickResolve st (Except.error ())).question = st.question
      ∧ (handleWordClickResolve st (Except.error ())).isAnswering = st.isAnswering
      ∧ (handleWordClickResolve st (Except.error ())).isGeneratingSummary
          = st.isGeneratingSummary :=
  ⟨rfl, rfl, rfl, rfl, rfl, rfl, rfl, rfl, rfl, rfl, rfl⟩
